import Mathlib

/-!
Verification development for the TruepediaHighlite repository
(`src/main.py` together with the earlier variant `src/attached_assets/main.py`).

Python strings are modelled as `List Char` (a Python `str` is a sequence of
code points); Python dicts with string keys are modelled as association
lists; session state is a record.  The modules `highlight_utils` and
`wiki_utils` are imported by `main.py` but their sources are not part of the
repository snapshot, so the functions they export are modelled from the
specification text and marked `Modelled from the spec:` in their doc
comments; everything else is translated directly from `src/main.py`.
-/

namespace TruepediaHighlite

/-- Modelled from the spec: a **Highlight** record "associates an article
identifier (title + language) with a text fragment (the highlighted
substring) and optionally a section identifier".  The article identifier is
the storage key (see `HighlightStore`), so the record itself carries the
fragment and the optional section identifier. -/
structure Highlight where
  fragment : List Char
  sectionId : Option (List Char)
deriving DecidableEq, Repr

/-- The opening markup inserted in front of a matched highlight span
(`main.py` styles the corresponding `mark` tag in its CSS, lines 93-96). -/
def markOpen : List Char := "<mark>".data

/-- The closing markup inserted after a matched highlight span. -/
def markClose : List Char := "</mark>".data

/-- Modelled from the spec: `highlight_utils.apply_highlights_to_text` is a
"direct substring search-and-wrap operation": this is the single-fragment
step, which scans the text left to right and wraps every (non-empty,
non-overlapping, leftmost) occurrence of the fragment in the highlight
markup.  An empty fragment matches no span and leaves the text unchanged. -/
def replace_fragment (pat : List Char) : List Char → List Char
  | [] => []
  | c :: rest =>
    if h : pat ≠ [] ∧ pat.isPrefixOf (c :: rest) then
      markOpen ++ pat ++ markClose ++ replace_fragment pat ((c :: rest).drop pat.length)
    else
      c :: replace_fragment pat rest
termination_by s => s.length
decreasing_by
  · simp only [List.length_drop]
    exact Nat.sub_lt (Nat.succ_pos _) (List.length_pos.mpr h.1)
  · simp

/-- Instrumented copy of `replace_fragment` running on characters annotated
with an insertion flag (`true` = the character was inserted as markup,
`false` = it comes from the input text).  The wrapped span keeps the
annotations of the characters it matched; only the markup is flagged as
inserted. -/
def replace_fragment_ann (pat : List Char) : List (Char × Bool) → List (Char × Bool)
  | [] => []
  | c :: rest =>
    if h : pat ≠ [] ∧ pat.isPrefixOf ((c :: rest).map Prod.fst) then
      markOpen.map (fun ch => (ch, true)) ++ (c :: rest).take pat.length
        ++ markClose.map (fun ch => (ch, true))
        ++ replace_fragment_ann pat ((c :: rest).drop pat.length)
    else
      c :: replace_fragment_ann pat rest
termination_by s => s.length
decreasing_by
  · simp only [List.length_drop]
    exact Nat.sub_lt (Nat.succ_pos _) (List.length_pos.mpr h.1)
  · simp

/-- Modelled from the spec: `highlight_utils.apply_highlights_to_text` takes
the raw text and the stored highlight records and applies the
single-fragment search-and-wrap for each record, in storage order. -/
def apply_highlights_to_text (t : List Char) : List Highlight → List Char
  | [] => t
  | h :: hs => apply_highlights_to_text (replace_fragment h.fragment t) hs

/-- Instrumented copy of `apply_highlights_to_text` on annotated characters. -/
def apply_highlights_ann (s : List (Char × Bool)) : List Highlight → List (Char × Bool)
  | [] => s
  | h :: hs => apply_highlights_ann (replace_fragment_ann h.fragment s) hs

/-- Annotate a raw text: none of its characters is inserted markup. -/
def annotate (s : List Char) : List (Char × Bool) := s.map (fun c => (c, false))

/-- Remove the characters flagged as inserted markup. -/
def eraseInserted (l : List (Char × Bool)) : List Char :=
  (l.filter (fun p => !p.2)).map Prod.fst

theorem eraseInserted_append (l₁ l₂ : List (Char × Bool)) :
    eraseInserted (l₁ ++ l₂) = eraseInserted l₁ ++ eraseInserted l₂ := by
  simp [eraseInserted]

theorem eraseInserted_cons (c : Char × Bool) (l : List (Char × Bool)) :
    eraseInserted (c :: l) = (bif c.2 then [] else [c.1]) ++ eraseInserted l := by
  cases hc : c.2 <;> simp [eraseInserted, List.filter_cons, hc]

theorem map_fst_tagged (b : Bool) (l : List Char) :
    (l.map (fun ch => (ch, b))).map Prod.fst = l := by
  induction l with
  | nil => rfl
  | cons c rest ih => simp [ih]

theorem map_comp_fst_tagged (b : Bool) (l : List Char) :
    l.map (Prod.fst ∘ fun ch => (ch, b)) = l := by
  rw [← List.map_map]
  exact map_fst_tagged b l

/-- A Boolean prefix test certifies that taking the pattern's length recovers
the pattern. -/
theorem take_of_isPrefixOf (pat l : List Char) (h : pat.isPrefixOf l) :
    l.take pat.length = pat := by
  induction pat generalizing l with
  | nil => simp
  | cons a as ih =>
    cases l with
    | nil => simp [List.isPrefixOf] at h
    | cons b bs =>
      simp only [List.isPrefixOf, Bool.and_eq_true, beq_iff_eq] at h
      simp [h.1, ih bs h.2]

theorem eraseInserted_annotate (s : List Char) : eraseInserted (annotate s) = s := by
  induction s with
  | nil => rfl
  | cons c rest ih => simpa [annotate, eraseInserted] using ih

theorem eraseInserted_inserted (l : List Char) :
    eraseInserted (l.map (fun ch => (ch, true))) = [] := by
  induction l with
  | nil => rfl
  | cons c rest ih => simp [eraseInserted] at ih ⊢

/-- The single-fragment wrap never loses or reorders input characters: erasing
the inserted markup recovers exactly the non-inserted characters that were
there before. -/
theorem eraseInserted_replace_fragment_ann (pat : List Char) (s : List (Char × Bool)) :
    eraseInserted (replace_fragment_ann pat s) = eraseInserted s := by
  induction s using replace_fragment_ann.induct pat with
  | case1 =>
    rw [replace_fragment_ann]
  | case2 c rest h ih =>
    rw [replace_fragment_ann]
    simp only [dif_pos h]
    rw [eraseInserted_append, eraseInserted_append, eraseInserted_append,
      eraseInserted_inserted, eraseInserted_inserted, ih]
    rw [List.nil_append, List.append_nil, ← eraseInserted_append,
      List.take_append_drop]
  | case3 c rest h ih =>
    rw [replace_fragment_ann]
    simp only [dif_neg h]
    rw [eraseInserted_cons, eraseInserted_cons, ih]

/-- Projecting the annotated single-fragment wrap onto its characters gives
exactly the plain single-fragment wrap. -/
theorem map_fst_replace_fragment_ann (pat : List Char) (s : List (Char × Bool)) :
    (replace_fragment_ann pat s).map Prod.fst = replace_fragment pat (s.map Prod.fst) := by
  induction s using replace_fragment_ann.induct pat with
  | case1 =>
    rw [replace_fragment_ann]
    rw [List.map_nil, replace_fragment]
  | case2 c rest h ih =>
    rw [replace_fragment_ann]
    simp only [dif_pos h]
    have hmap : (c :: rest).map Prod.fst = c.1 :: rest.map Prod.fst := List.map_cons ..
    rw [hmap, replace_fragment]
    rw [← hmap]
    simp only [dif_pos h]
    have htake : ((c :: rest).take pat.length).map Prod.fst = pat := by
      rw [List.map_take]
      exact take_of_isPrefixOf pat _ h.2
    have hdrop : ((c :: rest).drop pat.length).map Prod.fst
        = ((c :: rest).map Prod.fst).drop pat.length := List.map_drop ..
    simp only [List.map_append, htake, ih, hdrop]
    simp [map_fst_tagged, map_comp_fst_tagged]
  | case3 c rest h ih =>
    rw [replace_fragment_ann]
    simp only [dif_neg h]
    have hmap : (c :: rest).map Prod.fst = c.1 :: rest.map Prod.fst := List.map_cons ..
    rw [List.map_cons, hmap, replace_fragment]
    rw [← hmap]
    simp only [dif_neg h]
    simp [ih]

theorem map_fst_apply_highlights_ann (hs : List Highlight) (s : List (Char × Bool)) :
    (apply_highlights_ann s hs).map Prod.fst
      = apply_highlights_to_text (s.map Prod.fst) hs := by
  induction hs generalizing s with
  | nil => rfl
  | cons h rest ih =>
    rw [apply_highlights_ann, apply_highlights_to_text, ih,
      map_fst_replace_fragment_ann]

theorem eraseInserted_apply_highlights_ann (hs : List Highlight) (s : List (Char × Bool)) :
    eraseInserted (apply_highlights_ann s hs) = eraseInserted s := by
  induction hs generalizing s with
  | nil => rfl
  | cons h rest ih =>
    rw [apply_highlights_ann, ih, eraseInserted_replace_fragment_ann]

theorem map_fst_annotate (s : List Char) : (annotate s).map Prod.fst = s :=
  map_fst_tagged false s

/-- The single-record step of the highlight renderer: wrap the occurrences of
one stored fragment. -/
def replace_one_highlight (t : List Char) (h : Highlight) : List Char :=
  replace_fragment h.fragment t

/-- The flat highlight store: highlight records keyed by article identifier,
kept in storage order. -/
abbrev HighlightStore := List (List Char × Highlight)

/-- Modelled from the spec: `highlight_utils.get_highlights` reads the
records persisted under an article identifier, in storage order. -/
def get_highlights (st : HighlightStore) (aid : List Char) : List Highlight :=
  (st.filter (fun p => p.1 == aid)).map Prod.snd

/-- Modelled from the spec: `highlight_utils.save_highlight` persists one new
record under an article identifier; the store has "no lifecycle beyond
create/read", so saving appends and never rewrites. -/
def save_highlight (st : HighlightStore) (aid : List Char) (h : Highlight) : HighlightStore :=
  st ++ [(aid, h)]

/-- The article identifier used by `main.py`:
the Python f-string `f"{article['title']}_{st.session_state.current_language}"`. -/
def article_id (title lang : List Char) : List Char := title ++ '_' :: lang

/-- The key computed in the summary tab (`main.py` lines 304 and 318). -/
def summary_tab_article_id (title lang : List Char) : List Char := title ++ '_' :: lang

/-- The key computed in the full-content tab (`main.py` lines 344 and 368). -/
def content_tab_article_id (title lang : List Char) : List Char := title ++ '_' :: lang

/-- Splitting on a separator character is unambiguous as soon as the second
component contains no separator. -/
theorem append_sep_inj (sep : Char) (a b c d : List Char)
    (ha : sep ∉ a) (hc : sep ∉ c) (h : a ++ sep :: b = c ++ sep :: d) :
    a = c ∧ b = d := by
  induction a generalizing c with
  | nil =>
    cases c with
    | nil => simpa using h
    | cons x c' =>
      simp only [List.nil_append, List.cons_append, List.cons.injEq] at h
      obtain ⟨rfl, -⟩ := h
      exact absurd (List.mem_cons_self _ _) hc
  | cons x a' ih =>
    cases c with
    | nil =>
      simp only [List.cons_append, List.nil_append, List.cons.injEq] at h
      obtain ⟨hx, -⟩ := h
      exact absurd (by rw [hx]; exact List.mem_cons_self _ _) ha
    | cons y c' =>
      simp only [List.cons_append, List.cons.injEq] at h
      obtain ⟨rfl, h2⟩ := h
      have hr := ih c' (fun hm => ha (List.mem_cons_of_mem x hm))
        (fun hm => hc (List.mem_cons_of_mem x hm)) h2
      exact ⟨by rw [hr.1], hr.2⟩

/-- When neither language contains an underscore, the article identifier is
injective on title-language pairs. -/
theorem article_id_inj (t₁ l₁ t₂ l₂ : List Char)
    (h₁ : '_' ∉ l₁) (h₂ : '_' ∉ l₂) (h : article_id t₁ l₁ = article_id t₂ l₂) :
    t₁ = t₂ ∧ l₁ = l₂ := by
  have hrev : l₁.reverse ++ '_' :: t₁.reverse = l₂.reverse ++ '_' :: t₂.reverse := by
    have := congrArg List.reverse h
    simpa [article_id, List.reverse_append] using this
  have := append_sep_inj '_' l₁.reverse t₁.reverse l₂.reverse t₂.reverse
    (by simpa using h₁) (by simpa using h₂) hrev
  exact ⟨List.reverse_injective this.2, List.reverse_injective this.1⟩

/-- C1: `apply_highlights_to_text` returns an annotated copy of the input
text in which each matched highlight span is wrapped in inserted markup, and
removing the inserted markup (the characters flagged as inserted in the
instrumented run, which projects onto the plain run) yields the original
input text unchanged. -/
theorem apply_highlights_roundtrip (t : List Char) (hs : List Highlight) :
    (apply_highlights_ann (annotate t) hs).map Prod.fst = apply_highlights_to_text t hs ∧
    eraseInserted (apply_highlights_ann (annotate t) hs) = t := by
  constructor
  · rw [map_fst_apply_highlights_ann, map_fst_annotate]
  · rw [eraseInserted_apply_highlights_ann, eraseInserted_annotate]

/-- C3: applying a set of highlight records is exactly the fold, in storage
order, of the single-fragment substring search-and-wrap over the text. -/
theorem apply_highlights_is_fold (t : List Char) (hs : List Highlight) :
    apply_highlights_to_text t hs = hs.foldl replace_one_highlight t := by
  induction hs generalizing t with
  | nil => rfl
  | cons h rest ih =>
    rw [apply_highlights_to_text, List.foldl_cons, ih]
    rfl

/-- A concrete stored highlight record used in concrete instantiations. -/
def sample_highlight : Highlight := ⟨"frag".data, none⟩

/-- C2 (counterexample): the storage key `title_language` is ambiguous, so a
highlight stored under the pair ("a_b", "c") is returned for the different
title "a" with the different language "b_c". -/
theorem article_id_collision_cex :
    "a_b".data ≠ "a".data ∧ "c".data ≠ "b_c".data ∧
    article_id "a_b".data "c".data = article_id "a".data "b_c".data ∧
    get_highlights (save_highlight [] (article_id "a_b".data "c".data) sample_highlight)
        (article_id "a".data "b_c".data) = [sample_highlight] :=
  ⟨by decide, by decide, by decide, by decide⟩

/-- C2 (amended): every read and save of highlight records uses the same
storage key, `title ++ "_" ++ language`; whenever neither language contains
an underscore, distinct title-language pairs get distinct keys, and a
highlight saved under one pair is never returned for the other.  (Without
that proviso the key is ambiguous: see the collision of ("a_b", "c") with
("a", "b_c").) -/
theorem article_id_keying (t₁ l₁ t₂ l₂ : List Char) (st : HighlightStore) (h : Highlight)
    (h₁ : '_' ∉ l₁) (h₂ : '_' ∉ l₂) (hne : (t₁, l₁) ≠ (t₂, l₂)) :
    (∀ t l, summary_tab_article_id t l = article_id t l
        ∧ content_tab_article_id t l = article_id t l) ∧
    article_id t₁ l₁ ≠ article_id t₂ l₂ ∧
    get_highlights (save_highlight st (article_id t₁ l₁) h) (article_id t₂ l₂)
      = get_highlights st (article_id t₂ l₂) := by
  have hkey : article_id t₁ l₁ ≠ article_id t₂ l₂ := fun he =>
    hne (by rcases article_id_inj t₁ l₁ t₂ l₂ h₁ h₂ he with ⟨rfl, rfl⟩; rfl)
  have hb : (article_id t₁ l₁ == article_id t₂ l₂) = false :=
    beq_eq_false_iff_ne.mpr hkey
  refine ⟨fun t l => ⟨rfl, rfl⟩, hkey, ?_⟩
  simp [get_highlights, save_highlight, List.filter_append, List.filter_cons, hb]

/-- Witness for C2 (amended) at the concrete pairs ("x", "en") and
("y", "fr") over the empty store. -/
theorem article_id_keying_witness :
    ('_' ∉ "en".data ∧ '_' ∉ "fr".data ∧ ("x".data, "en".data) ≠ ("y".data, "fr".data)) ∧
    ((∀ t l, summary_tab_article_id t l = article_id t l
        ∧ content_tab_article_id t l = article_id t l) ∧
      article_id "x".data "en".data ≠ article_id "y".data "fr".data ∧
      get_highlights
          (save_highlight [] (article_id "x".data "en".data) sample_highlight)
          (article_id "y".data "fr".data)
        = get_highlights [] (article_id "y".data "fr".data)) :=
  ⟨⟨by decide, by decide, by decide⟩,
    article_id_keying "x".data "en".data "y".data "fr".data [] sample_highlight
      (by decide) (by decide) (by decide)⟩

/-- C4: the store has a create/read lifecycle only: a save appends one
record, so a later read returns everything it returned before, plus the new
record when the read uses the saved key; nothing is removed or altered. -/
theorem save_highlight_append_only (st : HighlightStore) (aid aid' : List Char) (h : Highlight) :
    get_highlights (save_highlight st aid h) aid'
      = get_highlights st aid' ++ (if aid = aid' then [h] else []) := by
  by_cases hh : aid = aid' <;>
    simp [get_highlights, save_highlight, List.filter_append, List.filter_cons, hh]

/-- An article record, modelled as a Python dict: an association list from
field names to string values. -/
abbrev Article := List (List Char × List Char)

/-- Modelled from the spec: `wiki_utils.get_article_content` fetches an
article transiently from the external Wikipedia API; per the spec an
**Article** carries "title, URL, summary, full content, source language".
The fetched pieces and whether the fetch succeeded are parameters, since the
network is outside the model. -/
def get_article_content (title lang url summary content : List Char)
    (found : Bool) : Option Article :=
  if found then
    some [("title".data, title), ("url".data, url), ("summary".data, summary),
      ("content".data, content), ("language".data, lang)]
  else none

/-- Modelled from the spec: `wiki_utils.get_article_in_language` fetches the
same article record shape in another language. -/
def get_article_in_language (title lang url summary content : List Char)
    (found : Bool) : Option Article :=
  if found then
    some [("title".data, title), ("url".data, url), ("summary".data, summary),
      ("content".data, content), ("language".data, lang)]
  else none

/-- Field access as performed by the rendering code
(`article["title"]`, `article["url"]`, `article["summary"]`,
`article["content"]` in `main.py` lines 242, 245, 322, 336). -/
def article_field (a : Article) (key : List Char) : Option (List Char) :=
  a.lookup key

/-- C5: every article record produced by `get_article_content` or
`get_article_in_language` contains the title, URL, summary, full content and
source language fields, so each field access made by the rendering code on a
non-empty current article succeeds. -/
theorem article_fields_present (title lang url summary content : List Char)
    (found : Bool) (a b : Article)
    (ha : get_article_content title lang url summary content found = some a)
    (hb : get_article_in_language title lang url summary content found = some b) :
    ((article_field a "title".data).isSome ∧ (article_field a "url".data).isSome ∧
      (article_field a "summary".data).isSome ∧ (article_field a "content".data).isSome ∧
      (article_field a "language".data).isSome) ∧
    ((article_field b "title".data).isSome ∧ (article_field b "url".data).isSome ∧
      (article_field b "summary".data).isSome ∧ (article_field b "content".data).isSome ∧
      (article_field b "language".data).isSome) := by
  cases found with
  | false =>
    rw [get_article_content] at ha
    simp at ha
  | true =>
    rw [get_article_content] at ha
    rw [get_article_in_language] at hb
    simp only [if_true, Option.some.injEq] at ha hb
    subst ha
    subst hb
    refine ⟨⟨?_, ?_, ?_, ?_, ?_⟩, ⟨?_, ?_, ?_, ?_, ?_⟩⟩ <;> rfl

/-- Witness for C5 at a concrete fetched article. -/
theorem article_fields_present_witness :
    (get_article_content "T".data "en".data "u".data "s".data "c".data true
        = some [("title".data, "T".data), ("url".data, "u".data),
          ("summary".data, "s".data), ("content".data, "c".data),
          ("language".data, "en".data)] ∧
      get_article_in_language "T".data "en".data "u".data "s".data "c".data true
        = some [("title".data, "T".data), ("url".data, "u".data),
          ("summary".data, "s".data), ("content".data, "c".data),
          ("language".data, "en".data)]) ∧
    (((article_field [("title".data, "T".data), ("url".data, "u".data),
          ("summary".data, "s".data), ("content".data, "c".data),
          ("language".data, "en".data)] "title".data).isSome ∧
        (article_field [("title".data, "T".data), ("url".data, "u".data),
          ("summary".data, "s".data), ("content".data, "c".data),
          ("language".data, "en".data)] "url".data).isSome ∧
        (article_field [("title".data, "T".data), ("url".data, "u".data),
          ("summary".data, "s".data), ("content".data, "c".data),
          ("language".data, "en".data)] "summary".data).isSome ∧
        (article_field [("title".data, "T".data), ("url".data, "u".data),
          ("summary".data, "s".data), ("content".data, "c".data),
          ("language".data, "en".data)] "content".data).isSome ∧
        (article_field [("title".data, "T".data), ("url".data, "u".data),
          ("summary".data, "s".data), ("content".data, "c".data),
          ("language".data, "en".data)] "language".data).isSome) ∧
      ((article_field [("title".data, "T".data), ("url".data, "u".data),
          ("summary".data, "s".data), ("content".data, "c".data),
          ("language".data, "en".data)] "title".data).isSome ∧
        (article_field [("title".data, "T".data), ("url".data, "u".data),
          ("summary".data, "s".data), ("content".data, "c".data),
          ("language".data, "en".data)] "url".data).isSome ∧
        (article_field [("title".data, "T".data), ("url".data, "u".data),
          ("summary".data, "s".data), ("content".data, "c".data),
          ("language".data, "en".data)] "summary".data).isSome ∧
        (article_field [("title".data, "T".data), ("url".data, "u".data),
          ("summary".data, "s".data), ("content".data, "c".data),
          ("language".data, "en".data)] "content".data).isSome ∧
        (article_field [("title".data, "T".data), ("url".data, "u".data),
          ("summary".data, "s".data), ("content".data, "c".data),
          ("language".data, "en".data)] "language".data).isSome)) :=
  ⟨⟨by decide, by decide⟩,
    article_fields_present "T".data "en".data "u".data "s".data "c".data true _ _
      (by decide) (by decide)⟩

/-- One call to `highlight_utils.create_highlight_interface`, recorded as the
triple of arguments the call sites in `main.py` pass: the text offered for
selection, the article identifier, and the section identifier. -/
structure InterfaceCall where
  text : List Char
  articleId : List Char
  sectionId : List Char
deriving DecidableEq, Repr

/-- One section of the split article content (the dicts returned by
`wiki_utils.split_content_into_sections`, as consumed by `main.py` via
`section["title"]` and `section["content"]`). -/
structure ContentSection where
  title : List Char
  content : List Char
deriving DecidableEq, Repr

/-- Decimal rendering of a Python loop index. -/
def natToChars (n : Nat) : List Char := (toString n).data

/-- The interface call issued by the summary tab
(`main.py` lines 315 and 329): the section identifier is `"summary"`. -/
def summary_tab_interface_call (summaryText aid : List Char) : InterfaceCall :=
  ⟨summaryText, aid, "summary".data⟩

/-- The interface calls issued by the full-content tab
(`main.py` lines 353-359 and 374-380): `for i, section in
enumerate(sections)` passes `section["content"]`, the article identifier and
`f"section_{i}"`. -/
def content_tab_interface_calls (sections : List ContentSection) (aid : List Char) :
    List InterfaceCall :=
  sections.enum.map (fun p => ⟨p.2.content, aid, "section_".data ++ natToChars p.1⟩)

/-- C7: a highlight saved from the summary tab carries the section
identifier "summary", and the interface shown for the i-th section of the
full-content tab (zero-based, one call per section) carries "section_i". -/
theorem highlight_interface_section_ids (sections : List ContentSection)
    (aid summaryText : List Char) (i : Nat)
    (hi : i < (content_tab_interface_calls sections aid).length) :
    (summary_tab_interface_call summaryText aid).sectionId = "summary".data ∧
    (content_tab_interface_calls sections aid).length = sections.length ∧
    ((content_tab_interface_calls sections aid).get ⟨i, hi⟩).sectionId
      = "section_".data ++ natToChars i ∧
    ((content_tab_interface_calls sections aid).get ⟨i, hi⟩).articleId = aid := by
  have hlen : (content_tab_interface_calls sections aid).length = sections.length := by
    simp [content_tab_interface_calls]
  refine ⟨rfl, hlen, ?_, ?_⟩ <;>
  · rw [List.get_eq_getElem]
    simp only [content_tab_interface_calls]
    rw [List.getElem_map, List.getElem_enum]

/-- Witness for C7 at a two-section article, index 1. -/
theorem highlight_interface_section_ids_witness :
    (1 < (content_tab_interface_calls
        [⟨"Intro".data, "ic".data⟩, ⟨"Body".data, "bc".data⟩] "T_en".data).length) ∧
    ((summary_tab_interface_call "sum".data "T_en".data).sectionId = "summary".data ∧
      (content_tab_interface_calls
          [⟨"Intro".data, "ic".data⟩, ⟨"Body".data, "bc".data⟩] "T_en".data).length = 2 ∧
      ((content_tab_interface_calls
          [⟨"Intro".data, "ic".data⟩, ⟨"Body".data, "bc".data⟩] "T_en".data).get
            ⟨1, by decide⟩).sectionId = "section_".data ++ natToChars 1 ∧
      ((content_tab_interface_calls
          [⟨"Intro".data, "ic".data⟩, ⟨"Body".data, "bc".data⟩] "T_en".data).get
            ⟨1, by decide⟩).articleId = "T_en".data) :=
  ⟨by decide,
    highlight_interface_section_ids
      [⟨"Intro".data, "ic".data⟩, ⟨"Body".data, "bc".data⟩] "T_en".data "sum".data 1
      (by decide)⟩

/-- The content passed to `translate_text` by the full-content tab
(`main.py` line 336): `article["content"][:3000] + "..." if
len(article["content"]) > 3000 else article["content"]`. -/
def content_preview (content : List Char) : List Char :=
  if content.length > 3000 then content.take 3000 ++ "...".data else content

/-- Whether the informational note about the length limitation is shown
(`main.py` lines 361-362): `if len(article["content"]) > 3000`. -/
def length_limitation_note (content : List Char) : Bool :=
  decide (content.length > 3000)

/-- C8: when the article content is longer than 3000 characters, exactly its
first 3000 characters followed by "..." are passed to `translate_text` and
the length-limitation note is shown; otherwise the whole content is passed
and no note is shown. -/
theorem content_preview_translation_limit (content : List Char) :
    (3000 < content.length →
      content_preview content = content.take 3000 ++ "...".data ∧
      (content.take 3000).length = 3000 ∧
      length_limitation_note content = true) ∧
    (content.length ≤ 3000 →
      content_preview content = content ∧
      length_limitation_note content = false) := by
  constructor
  · intro h
    refine ⟨if_pos h, ?_, ?_⟩
    · rw [List.length_take]
      exact Nat.min_eq_left (Nat.le_of_lt h)
    · simpa [length_limitation_note] using h
  · intro h
    have h' : ¬ content.length > 3000 := Nat.not_lt.mpr h
    refine ⟨if_neg h', ?_⟩
    simpa [length_limitation_note] using h'

/-- Witness for C8: a 3001-character content is truncated and flagged, a
2-character content is passed through unflagged. -/
theorem content_preview_translation_limit_witness :
    (3000 < (List.replicate 3001 'a').length ∧
      (content_preview (List.replicate 3001 'a')
          = (List.replicate 3001 'a').take 3000 ++ "...".data ∧
        ((List.replicate 3001 'a').take 3000).length = 3000 ∧
        length_limitation_note (List.replicate 3001 'a') = true)) ∧
    (("ab".data : List Char).length ≤ 3000 ∧
      (content_preview "ab".data = "ab".data ∧
        length_limitation_note "ab".data = false)) :=
  by
  have h1 : 3000 < (List.replicate 3001 'a').length := by
    rw [List.length_replicate]
    norm_num
  exact ⟨⟨h1, (content_preview_translation_limit (List.replicate 3001 'a')).1 h1⟩,
    ⟨by decide, (content_preview_translation_limit "ab".data).2 (by decide)⟩⟩

/-- The translation guard of both tabs (`main.py` lines 295 and 333):
`st.session_state.show_translation and st.session_state.translate_to !=
st.session_state.current_language`.  The target language is `None` until the
translation selectbox has been rendered, hence the `Option`. -/
def translation_requested (showTr : Bool) (translateTo : Option (List Char))
    (currentLang : List Char) : Bool :=
  showTr && !(translateTo == some currentLang)

/-- The summary tab (`main.py` lines 293-329): if the guard holds the
summary is translated and highlighted, otherwise the stored summary is
highlighted as is.  The Boolean records whether `translate_text` was
called. -/
def summary_tab_render (tr : List Char → List Char) (hs : List Highlight)
    (showTr : Bool) (translateTo : Option (List Char)) (currentLang : List Char)
    (summary : List Char) : List Char × Bool :=
  if translation_requested showTr translateTo currentLang then
    (apply_highlights_to_text (tr summary) hs, true)
  else
    (apply_highlights_to_text summary hs, false)

/-- The full-content tab's choice of the text to split and render
(`main.py` lines 331-365): under the guard the truncated content is
translated, otherwise the stored content is used.  The Boolean records
whether `translate_text` was called. -/
def content_tab_render (tr : List Char → List Char)
    (showTr : Bool) (translateTo : Option (List Char)) (currentLang : List Char)
    (content : List Char) : List Char × Bool :=
  if translation_requested showTr translateTo currentLang then
    (tr (content_preview content), true)
  else
    (content, false)

/-- C9: translated text is rendered only when translation was requested and
the target language differs from the article's current language; when the
target equals the current language both tabs show the untranslated text and
`translate_text` is not called (the render does not depend on the
translator at all). -/
theorem translation_guard (tr tr' : List Char → List Char) (hs : List Highlight)
    (showTr : Bool) (translateTo : Option (List Char))
    (currentLang summary content : List Char) :
    ((summary_tab_render tr hs showTr translateTo currentLang summary).2 = true ↔
      showTr = true ∧ translateTo ≠ some currentLang) ∧
    ((content_tab_render tr showTr translateTo currentLang content).2 = true ↔
      showTr = true ∧ translateTo ≠ some currentLang) ∧
    (translateTo = some currentLang →
      summary_tab_render tr hs showTr translateTo currentLang summary
          = (apply_highlights_to_text summary hs, false) ∧
        content_tab_render tr showTr translateTo currentLang content
          = (content, false) ∧
        summary_tab_render tr hs showTr translateTo currentLang summary
          = summary_tab_render tr' hs showTr translateTo currentLang summary ∧
        content_tab_render tr showTr translateTo currentLang content
          = content_tab_render tr' showTr translateTo currentLang content) := by
  have hflag : (translation_requested showTr translateTo currentLang) = true ↔
      showTr = true ∧ translateTo ≠ some currentLang := by
    simp [translation_requested]
  have hs2 : (summary_tab_render tr hs showTr translateTo currentLang summary).2
      = translation_requested showTr translateTo currentLang := by
    by_cases hg : translation_requested showTr translateTo currentLang = true <;>
      simp [summary_tab_render, hg]
  have hc2 : (content_tab_render tr showTr translateTo currentLang content).2
      = translation_requested showTr translateTo currentLang := by
    by_cases hg : translation_requested showTr translateTo currentLang = true <;>
      simp [content_tab_render, hg]
  refine ⟨?_, ?_, ?_⟩
  · rw [hs2]
    exact hflag
  · rw [hc2]
    exact hflag
  · intro heq
    have hg : translation_requested showTr translateTo currentLang = false := by
      simp [translation_requested, heq]
    refine ⟨?_, ?_, ?_, ?_⟩ <;>
      simp [summary_tab_render, content_tab_render, hg]

/-- Witness for C9 with the target language equal to the current language:
two distinct translators yield the same untranslated render. -/
theorem translation_guard_witness :
    ((some "en".data : Option (List Char)) = some "en".data) ∧
    (summary_tab_render id [] true (some "en".data) "en".data "sum".data
        = (apply_highlights_to_text "sum".data [], false) ∧
      content_tab_render id true (some "en".data) "en".data "body".data
        = ("body".data, false) ∧
      summary_tab_render id [] true (some "en".data) "en".data "sum".data
        = summary_tab_render (fun _ => "X".data) [] true (some "en".data) "en".data "sum".data ∧
      content_tab_render id true (some "en".data) "en".data "body".data
        = content_tab_render (fun _ => "X".data) true (some "en".data) "en".data "body".data) :=
  ⟨rfl,
    (translation_guard id (fun _ => "X".data) [] true (some "en".data)
      "en".data "sum".data "body".data).2.2 rfl⟩

/-- The session state initialised by `main.py` lines 118-132. -/
structure SessionState where
  search_results : List (List Char)
  current_article : Option Article
  available_languages : List (List Char × List Char)
  current_language : List Char
  translate_to : Option (List Char)
  show_translation : Bool
  highlight_mode : Bool
deriving DecidableEq, Repr

/-- The Search button handler (`main.py` lines 152-159): when the query is
non-empty (`if search_query:`) the handler stores the fetched results and
resets the article view; the fetched result list is a parameter because the
network is outside the model. -/
def search_button_handler (results : List (List Char))
    (search_query search_lang : List Char) (st : SessionState) : SessionState :=
  if search_query ≠ [] then
    { st with
      search_results := results
      current_article := none
      available_languages := []
      current_language := search_lang
      show_translation := false }
  else st

/-- C10: a search with a non-empty query replaces the results, clears the
current article, empties the available-languages map, sets the current
language to the chosen search language and turns translation off, leaving
the remaining fields (`translate_to`, `highlight_mode`) unchanged; a search
with an empty query changes nothing. -/
theorem search_button_frame (results : List (List Char))
    (q lang : List Char) (st : SessionState) :
    (q ≠ [] →
      search_button_handler results q lang st =
        { st with
          search_results := results
          current_article := none
          available_languages := []
          current_language := lang
          show_translation := false }) ∧
    (q = [] → search_button_handler results q lang st = st) := by
  constructor
  · intro h
    rw [search_button_handler, if_pos h]
  · intro h
    rw [search_button_handler, if_neg (by simp [h])]

/-- A concrete session state used to instantiate C10. -/
def sample_state : SessionState :=
  ⟨[], some [("title".data, "T".data)], [("fr".data, "Tfr".data)],
    "en".data, some "de".data, true, true⟩

/-- Witness for C10: a non-empty query resets the view on a concrete state,
an empty query leaves it untouched. -/
theorem search_button_frame_witness :
    ("cats".data ≠ [] ∧
      search_button_handler ["Cat".data] "cats".data "fr".data sample_state =
        { sample_state with
          search_results := ["Cat".data]
          current_article := none
          available_languages := []
          current_language := "fr".data
          show_translation := false }) ∧
    (([] : List Char) = [] ∧
      search_button_handler ["Cat".data] [] "fr".data sample_state = sample_state) :=
  ⟨⟨by decide,
      (search_button_frame ["Cat".data] "cats".data "fr".data sample_state).1 (by decide)⟩,
    ⟨rfl, (search_button_frame ["Cat".data] [] "fr".data sample_state).2 rfl⟩⟩

end TruepediaHighlite
